import Mathlib

/-!
Verification of the magic-wormhole Dilation L2 connection core
(`src/wormhole/_dilation/connection.py`) and the outer-wormhole `Receive`
machine (`src/wormhole/_receive.py`) against their specification.

Byte strings are modelled as `List Nat` (each element a byte value).
External collaborators (the Noise session, `derive_phase_key`,
`decrypt_data`, the transport) are modelled as abstract function
parameters; raised Python exceptions are modelled with `Except`.
-/

/-- A Python byte string, as a list of byte values. -/
abbrev Bytes := List Nat

/-- The literal relay reply `b"ok\n"`. -/
def okn : Bytes := [111, 107, 10]

/-- Errors raised by the embedded code: `Disconnect` (connection.py),
Python `TypeError` (a call whose arguments do not match the callee's
parameters), Python `AssertionError` (a failed `assert`), and automat's
`NoTransition` (an input fed to a state with no transition for it). -/
inductive Err where
  | disconnect
  | typeError
  | assertionError
  | noTransition
deriving DecidableEq, Repr

/-- Modelled from the spec: `to_be4` from `wormhole._dilation.encode`
(not under src/); the 4-byte big-endian encoding of a length
("4-byte big-endian length prefix", spec section 3). -/
def to_be4 (n : Nat) : Bytes :=
  [n / 2 ^ 24 % 256, n / 2 ^ 16 % 256, n / 2 ^ 8 % 256, n % 256]

/-- Modelled from the spec: `from_be4` from `wormhole._dilation.encode`
(not under src/); the big-endian decode of a 4-byte string
("big-endian decode of the first 4 bytes", spec section 4.1). -/
def from_be4 (bs : Bytes) : Nat :=
  bs.foldl (fun acc b => 256 * acc + b) 0

/-- Embedding of `_Framer.parse_frame` (connection.py lines 111-120): if the buffer
holds fewer than 4 bytes there is no frame; otherwise decode the length
`N` from the first 4 bytes, and — as the source is written — wait only
while `len(buffer) < N`.  On success return the payload
`buffer[4:4+N]` and the remaining buffer `buffer[4+N:]`
(Python slices truncate silently, as does `List.take`). -/
def parse_frame (buffer : Bytes) : Option (Bytes × Bytes) :=
  if buffer.length < 4 then
    none
  else if buffer.length < from_be4 (buffer.take 4) then
    none
  else
    some ((buffer.drop 4).take (from_be4 (buffer.take 4)),
          buffer.drop (4 + from_be4 (buffer.take 4)))

/-- Embedding of `_Framer._get_expected` (connection.py lines 141-159): if the buffer
starts with the expected constant, consume it (`.ok (some rest)`); if the
buffer deviates from the expected constant, raise `Disconnect` once the
buffer contains a newline (byte 10) or has reached the constant's
length, else wait (`.ok none`); if the buffer is still a prefix of the
constant, wait. -/
def get_expected (buffer expected : Bytes) : Except Err (Option Bytes) :=
  if List.isPrefixOf expected buffer then
    .ok (some (buffer.drop expected.length))
  else if buffer ≠ expected.take buffer.length then
    if 10 ∈ buffer ∨ expected.length ≤ buffer.length then
      .error .disconnect
    else
      .ok none
  else
    .ok none

/-- The typed records of connection.py (namedtuples `KCM` .. `Ack`),
field order as in the source: `Open(seqnum, scid)` etc. -/
inductive Record where
  | KCM
  | Ping (ping_id : Bytes)
  | Pong (ping_id : Bytes)
  | Open (seqnum scid : Bytes)
  | Data (seqnum scid data : Bytes)
  | Close (seqnum scid : Bytes)
  | Ack (resp_seqnum : Bytes)
deriving DecidableEq, Repr

/-- Embedding of `encode_record` (connection.py lines 330-345): tag byte followed by
the fields; `Open`/`Data`/`Close` write `scid` then `seqnum`. -/
def encode_record (r : Record) : Bytes :=
  match r with
  | .KCM => [0]
  | .Ping ping_id => 1 :: ping_id
  | .Pong ping_id => 2 :: ping_id
  | .Open seqnum scid => 3 :: (scid ++ seqnum)
  | .Data seqnum scid data => 4 :: (scid ++ seqnum ++ data)
  | .Close seqnum scid => 5 :: (scid ++ seqnum)
  | .Ack resp_seqnum => 6 :: resp_seqnum

/-- Embedding of `parse_record` (connection.py lines 218-245): dispatch on
`plaintext[0:1]`; fixed fields are the 4-byte slices `[1:5]` and `[5:9]`,
`Data`'s payload is `[9:]`.  An unrecognised tag is logged and the
function returns `None` (the trailing `# TODO: raise` is not executed). -/
def parse_record (plaintext : Bytes) : Option Record :=
  let msgtype := plaintext.take 1
  if msgtype = [0] then
    some .KCM
  else if msgtype = [1] then
    some (.Ping ((plaintext.drop 1).take 4))
  else if msgtype = [2] then
    some (.Pong ((plaintext.drop 1).take 4))
  else if msgtype = [3] then
    some (.Open ((plaintext.drop 5).take 4) ((plaintext.drop 1).take 4))
  else if msgtype = [4] then
    some (.Data ((plaintext.drop 5).take 4) ((plaintext.drop 1).take 4)
           (plaintext.drop 9))
  else if msgtype = [5] then
    some (.Close ((plaintext.drop 5).take 4) ((plaintext.drop 1).take 4))
  else if msgtype = [6] then
    some (.Ack ((plaintext.drop 1).take 4))
  else
    none

/-- C1: `parse_frame` emits a frame early.  With buffer
`00 00 00 04 61 62` (6 bytes, advertised payload length N = 4) the
source's readiness check `len(buffer) < frame_length` passes, so a frame
with the truncated 2-byte payload `ab` is emitted and the whole buffer is
consumed — although the buffer length 6 is below 4 + N = 8, where the
claim says no frame may be emitted and any emitted payload has exactly
N bytes. -/
theorem parse_frame_emits_truncated_frame :
    parse_frame [0, 0, 0, 4, 97, 98] = some ([97, 98], []) ∧
    from_be4 ([0, 0, 0, 4, 97, 98].take 4) = 4 ∧
    ([0, 0, 0, 4, 97, 98] : Bytes).length < 4 + 4 := by
  decide

/-- The `_Framer` states (`want_relay`, `want_prologue`, `want_frame`). -/
inductive FramerState where
  | wantRelay
  | wantPrologue
  | wantFrame
deriving DecidableEq, Repr

/-- The `_Framer` object: the configured prologues, the inbound
`_buffer`, the `_can_send_frames` flag, the machine state, the relay
fields installed by `use_relay`, and the trace of `transport.write`
calls. -/
structure Framer where
  outboundPrologue : Bytes
  inboundPrologue : Bytes
  buffer : Bytes
  canSendFrames : Bool
  state : FramerState
  outboundRelayHandshake : Bytes
  expectedRelayHandshake : Bytes
  writes : List Bytes
deriving DecidableEq, Repr

/-- The tokens `add_and_parse` yields to its caller (`RelayOK` is
consumed internally and never yielded). -/
inductive Token where
  | prologue
  | frame (frame : Bytes)
deriving DecidableEq, Repr

/-- Outcome of driving the `add_and_parse` loop: the yielded tokens, the
final framer, and whether `Disconnect` was raised (tokens yielded before
the raise have already been consumed by the caller). -/
structure RunResult where
  tokens : List Token
  framer : Framer
  disconnected : Bool
deriving DecidableEq, Repr

/-- Rank used for the termination measure of the parse loop. -/
def stateRank : FramerState → Nat
  | .wantRelay => 2
  | .wantPrologue => 1
  | .wantFrame => 0

theorem get_expected_some {b e r : Bytes}
    (h : get_expected b e = .ok (some r)) :
    List.isPrefixOf e b ∧ r = b.drop e.length := by
  by_cases h1 : List.isPrefixOf e b
  · simp only [get_expected, h1, if_true, Except.ok.injEq, Option.some.injEq] at h
    exact ⟨h1, h.symm⟩
  · simp only [get_expected, h1, if_false] at h
    split_ifs at h <;> simp_all

theorem get_expected_some_length {b e r : Bytes}
    (h : get_expected b e = .ok (some r)) : r.length ≤ b.length := by
  have h2 := (get_expected_some h).2
  subst h2
  simp

theorem parse_frame_some_length {b fr rest : Bytes}
    (h : parse_frame b = some (fr, rest)) : rest.length + 4 ≤ b.length := by
  unfold parse_frame at h
  split_ifs at h with h4 h5 <;>
    simp only [Option.some.injEq, Prod.mk.injEq, reduceCtorEq] at h
  obtain ⟨h1, h2⟩ := h
  subst h2
  simp only [List.length_drop]
  omega

/-- The loop body of `_Framer.add_and_parse` (connection.py lines
163-181): repeatedly `parse()`, dispatching on the current state.  A
`RelayOK` token feeds `got_relay_ok` (write the outbound prologue, enter
`want_prologue`) and is not yielded; a `Prologue` token feeds
`got_prologue` (set `_can_send_frames`, enter `want_frame`) and is
yielded; a `Frame` token is yielded; no token ends the loop.  A raised
`Disconnect` propagates (recorded in `disconnected`). -/
def runLoop (f : Framer) : RunResult :=
  match hst : f.state with
  | .wantRelay =>
    match hge : get_expected f.buffer f.expectedRelayHandshake with
    | .error _ => ⟨[], f, true⟩
    | .ok none => ⟨[], f, false⟩
    | .ok (some rest) =>
      runLoop { f with buffer := rest, state := .wantPrologue,
                       writes := f.writes ++ [f.outboundPrologue] }
  | .wantPrologue =>
    match hge : get_expected f.buffer f.inboundPrologue with
    | .error _ => ⟨[], f, true⟩
    | .ok none => ⟨[], f, false⟩
    | .ok (some rest) =>
      let r := runLoop { f with buffer := rest, state := .wantFrame,
                                canSendFrames := true }
      ⟨.prologue :: r.tokens, r.framer, r.disconnected⟩
  | .wantFrame =>
    match hpf : parse_frame f.buffer with
    | none => ⟨[], f, false⟩
    | some (fr, rest) =>
      let r := runLoop { f with buffer := rest }
      ⟨.frame fr :: r.tokens, r.framer, r.disconnected⟩
termination_by 3 * f.buffer.length + stateRank f.state
decreasing_by
  · have := get_expected_some_length hge
    simp only [stateRank, hst]
    omega
  · have := get_expected_some_length hge
    simp only [stateRank, hst]
    omega
  · have := parse_frame_some_length hpf
    simp only [stateRank, hst]
    omega

/-- Embedding of `_Framer.add_and_parse`: append the data to the buffer and drive the
parse loop. -/
def add_and_parse (f : Framer) (data : Bytes) : RunResult :=
  runLoop { f with buffer := f.buffer ++ data }

/-- Embedding of `_Framer.use_relay` (automat input, defined only in `want_prologue`):
store the outbound relay handshake, set the expected reply to `b"ok\n"`,
enter `want_relay`. -/
def use_relay (f : Framer) (relay_handshake : Bytes) : Option Framer :=
  match f.state with
  | .wantPrologue =>
    some { f with state := .wantRelay,
                  outboundRelayHandshake := relay_handshake,
                  expectedRelayHandshake := okn }
  | _ => none

/-- Embedding of `_Framer.connectionMade` (automat input): in `want_relay` write the
outbound relay handshake, in `want_prologue` write the outbound
prologue; undefined in `want_frame`. -/
def Framer.connectionMade (f : Framer) : Option Framer :=
  match f.state with
  | .wantRelay => some { f with writes := f.writes ++ [f.outboundRelayHandshake] }
  | .wantPrologue => some { f with writes := f.writes ++ [f.outboundPrologue] }
  | .wantFrame => none

/-- A freshly constructed `_Framer(transport, outbound_prologue,
inbound_prologue)`: empty buffer, cannot send frames, initial state
`want_prologue`; the relay attributes do not exist until `use_relay`
runs (modelled as empty, only read after `use_relay` sets them). -/
def mkFramer (outboundPrologue inboundPrologue : Bytes) : Framer :=
  { outboundPrologue := outboundPrologue
    inboundPrologue := inboundPrologue
    buffer := []
    canSendFrames := false
    state := .wantPrologue
    outboundRelayHandshake := []
    expectedRelayHandshake := []
    writes := [] }

/-- C2: chunking is not transparent.  With inbound prologue `p` (byte
112) and stream `p ‖ 00 00 00 02 61 62` (a prologue followed by one
2-byte frame), feeding the whole stream at once yields
`Prologue, Frame(ab)`, but feeding the first six bytes and then the last
byte yields `Prologue, Frame(a)` and then nothing — the truncated-frame
slip in `parse_frame` makes the token sequence depend on the chunking. -/
theorem add_and_parse_chunking_diverges :
    (add_and_parse (mkFramer [] [112]) [112, 0, 0, 0, 2, 97, 98]).tokens
      = [.prologue, .frame [97, 98]] ∧
    (add_and_parse (mkFramer [] [112]) [112, 0, 0, 0, 2, 97]).tokens
      = [.prologue, .frame [97]] ∧
    (add_and_parse
        (add_and_parse (mkFramer [] [112]) [112, 0, 0, 0, 2, 97]).framer
        [98]).tokens = [] := by
  refine ⟨?_, ?_, ?_⟩ <;>
    simp [add_and_parse, runLoop, mkFramer, get_expected, parse_frame, from_be4]

theorem get_expected_of_startswith {b e : Bytes} (h : List.isPrefixOf e b) :
    get_expected b e = .ok (some (b.drop e.length)) := by
  rw [get_expected, if_pos h]

theorem get_expected_of_not_startswith {b e : Bytes}
    (h : ¬ List.isPrefixOf e b) :
    get_expected b e = .ok none ∨ get_expected b e = .error .disconnect := by
  rw [get_expected, if_neg h]
  split_ifs <;> simp

/-- C6: while awaiting an expected constant, `_get_expected` raises
`Disconnect` exactly when the non-matching buffer contains a newline or
has reached the constant's length; a buffer that is still a proper
prefix of the constant never raises. -/
theorem get_expected_disconnect_exact (buffer expected : Bytes) :
    (¬ List.isPrefixOf expected buffer →
      ¬ (List.IsPrefix buffer expected ∧ buffer ≠ expected) →
      (get_expected buffer expected = .error .disconnect ↔
        10 ∈ buffer ∨ expected.length ≤ buffer.length)) ∧
    (List.IsPrefix buffer expected → buffer ≠ expected →
      get_expected buffer expected ≠ .error .disconnect) := by
  constructor
  · intro h1 h2
    have hne : buffer ≠ expected.take buffer.length := by
      intro heq
      apply h2
      refine ⟨heq ▸ List.take_prefix _ _, ?_⟩
      intro hbe
      exact h1 (List.isPrefixOf_iff_prefix.2 (hbe ▸ List.prefix_refl _))
    rw [get_expected, if_neg h1, if_pos hne]
    split_ifs with h3 <;> simp [h3]
  · intro hp hne heq
    rw [get_expected] at heq
    have htake : buffer = expected.take buffer.length :=
      List.prefix_iff_eq_take.1 hp
    split_ifs at heq with c1 c2 c3 <;>
      first
        | exact c2 htake
        | exact absurd heq (by simp)

/-- Witness for C6 at buffer `x` (120), expected `ab` (97 98): neither a
match nor a prefix; no newline and still short, so no `Disconnect`. -/
theorem get_expected_disconnect_exact_witness :
    get_expected [120] [97, 98] = .error .disconnect ↔
      10 ∈ ([120] : Bytes) ∨ ([97, 98] : Bytes).length ≤ ([120] : Bytes).length := by
  exact (get_expected_disconnect_exact [120] [97, 98]).1 (by decide) (by decide)

theorem runLoop_relay_consume (f : Framer) (rest : Bytes)
    (hst : f.state = .wantRelay)
    (hge : get_expected f.buffer f.expectedRelayHandshake = .ok (some rest)) :
    runLoop f = runLoop { f with
      buffer := rest, state := .wantPrologue,
      writes := f.writes ++ [f.outboundPrologue] } := by
  rw [runLoop]
  split <;> rename_i hst2
  · split <;> rename_i hge2
    · rw [hge] at hge2; simp at hge2
    · rw [hge] at hge2; simp at hge2
    · rename_i rest2
      rw [hge] at hge2
      simp only [Except.ok.injEq, Option.some.injEq] at hge2
      subst hge2
      rfl
  · rw [hst] at hst2; simp at hst2
  · rw [hst] at hst2; simp at hst2

theorem runLoop_relay_wait (f : Framer)
    (hst : f.state = .wantRelay)
    (hge : get_expected f.buffer f.expectedRelayHandshake = .ok none) :
    runLoop f = ⟨[], f, false⟩ := by
  rw [runLoop]
  split <;> rename_i hst2
  · split <;> rename_i hge2
    · rw [hge] at hge2; simp at hge2
    · rfl
    · rw [hge] at hge2; simp at hge2
  · rw [hst] at hst2; simp at hst2
  · rw [hst] at hst2; simp at hst2

theorem runLoop_relay_fail (f : Framer) (a : Err)
    (hst : f.state = .wantRelay)
    (hge : get_expected f.buffer f.expectedRelayHandshake = .error a) :
    runLoop f = ⟨[], f, true⟩ := by
  rw [runLoop]
  split <;> rename_i hst2
  · split <;> rename_i hge2
    · rfl
    · rw [hge] at hge2; simp at hge2
    · rw [hge] at hge2; simp at hge2
  · rw [hst] at hst2; simp at hst2
  · rw [hst] at hst2; simp at hst2

theorem runLoop_prologue_consume (f : Framer) (rest : Bytes)
    (hst : f.state = .wantPrologue)
    (hge : get_expected f.buffer f.inboundPrologue = .ok (some rest)) :
    runLoop f = ⟨.prologue :: (runLoop { f with
        buffer := rest, state := .wantFrame, canSendFrames := true }).tokens,
      (runLoop { f with
        buffer := rest, state := .wantFrame, canSendFrames := true }).framer,
      (runLoop { f with
        buffer := rest, state := .wantFrame, canSendFrames := true }).disconnected⟩ := by
  rw [runLoop]
  split <;> rename_i hst2
  · rw [hst] at hst2; simp at hst2
  · split <;> rename_i hge2
    · rw [hge] at hge2; simp at hge2
    · rw [hge] at hge2; simp at hge2
    · rename_i rest2
      rw [hge] at hge2
      simp only [Except.ok.injEq, Option.some.injEq] at hge2
      subst hge2
      rfl
  · rw [hst] at hst2; simp at hst2

theorem runLoop_prologue_wait (f : Framer)
    (hst : f.state = .wantPrologue)
    (hge : get_expected f.buffer f.inboundPrologue = .ok none) :
    runLoop f = ⟨[], f, false⟩ := by
  rw [runLoop]
  split <;> rename_i hst2
  · rw [hst] at hst2; simp at hst2
  · split <;> rename_i hge2
    · rw [hge] at hge2; simp at hge2
    · rfl
    · rw [hge] at hge2; simp at hge2
  · rw [hst] at hst2; simp at hst2

theorem runLoop_prologue_fail (f : Framer) (a : Err)
    (hst : f.state = .wantPrologue)
    (hge : get_expected f.buffer f.inboundPrologue = .error a) :
    runLoop f = ⟨[], f, true⟩ := by
  rw [runLoop]
  split <;> rename_i hst2
  · rw [hst] at hst2; simp at hst2
  · split <;> rename_i hge2
    · rfl
    · rw [hge] at hge2; simp at hge2
    · rw [hge] at hge2; simp at hge2
  · rw [hst] at hst2; simp at hst2

theorem runLoop_frame_none (f : Framer)
    (hst : f.state = .wantFrame)
    (hpf : parse_frame f.buffer = none) :
    runLoop f = ⟨[], f, false⟩ := by
  rw [runLoop]
  split <;> rename_i hst2
  · rw [hst] at hst2; simp at hst2
  · rw [hst] at hst2; simp at hst2
  · split <;> rename_i hpf2
    · rfl
    · rw [hpf] at hpf2; simp at hpf2

theorem runLoop_frame_some (f : Framer) (fr rest : Bytes)
    (hst : f.state = .wantFrame)
    (hpf : parse_frame f.buffer = some (fr, rest)) :
    runLoop f = ⟨.frame fr :: (runLoop { f with buffer := rest }).tokens,
      (runLoop { f with buffer := rest }).framer,
      (runLoop { f with buffer := rest }).disconnected⟩ := by
  rw [runLoop]
  split <;> rename_i hst2
  · rw [hst] at hst2; simp at hst2
  · rw [hst] at hst2; simp at hst2
  · split <;> rename_i hpf2
    · rw [hpf] at hpf2; simp at hpf2
    · rename_i fr2 rest2
      rw [hpf] at hpf2
      simp only [Option.some.injEq, Prod.mk.injEq] at hpf2
      obtain ⟨h1, h2⟩ := hpf2
      subst h1
      subst h2
      rfl

/-- Outside of `want_relay`, the parse loop writes nothing to the
transport (only the `got_relay_ok` transition triggers `send_prologue`). -/
theorem runLoop_writes_stable (f : Framer) (hf : ¬ f.state = .wantRelay) :
    (runLoop f).framer.writes = f.writes := by
  induction f using runLoop.induct with
  | case1 x hst a hge => exact absurd hst hf
  | case2 x hst hge => exact absurd hst hf
  | case3 x hst rest hge ih => exact absurd hst hf
  | case4 x hst a hge => rw [runLoop_prologue_fail x a hst hge]
  | case5 x hst hge => rw [runLoop_prologue_wait x hst hge]
  | case6 x hst rest hge ih =>
    rw [runLoop_prologue_consume x rest hst hge]
    exact ih (by simp)
  | case7 x hst hpf => rw [runLoop_frame_none x hst hpf]
  | case8 x hst fr rest hpf ih =>
    rw [runLoop_frame_some x fr rest hst hpf]
    exact ih (by simp [hst])

/-- In `want_relay`, one pass of the loop writes the outbound prologue
exactly when the buffer starts with the expected relay reply, and
nothing else is ever written. -/
theorem runLoop_wantRelay_writes (f : Framer) (hst : f.state = .wantRelay) :
    (runLoop f).framer.writes =
      f.writes ++ (if List.isPrefixOf f.expectedRelayHandshake f.buffer
                   then [f.outboundPrologue] else []) := by
  by_cases hp : List.isPrefixOf f.expectedRelayHandshake f.buffer
  · rw [runLoop_relay_consume f _ hst (get_expected_of_startswith hp)]
    rw [runLoop_writes_stable _ (by simp)]
    simp [hp]
  · rcases get_expected_of_not_startswith hp with hge | hge
    · rw [runLoop_relay_wait f hst hge]
      simp [hp]
    · rw [runLoop_relay_fail f _ hst hge]
      simp [hp]

/-- C9: if `use_relay` is invoked before `connectionMade`, then on
connect the only bytes written are exactly the configured relay
handshake, and on any subsequently received data the outbound prologue
is written if and only if the data starts with (and the Framer consumes)
the literal reply `b"ok\n"`. -/
theorem relay_handshake_precedes_prologue (op ip rh : Bytes) (f1 f2 : Framer)
    (h1 : use_relay (mkFramer op ip) rh = some f1)
    (h2 : f1.connectionMade = some f2) :
    f2.writes = [rh] ∧
    ∀ d, (add_and_parse f2 d).framer.writes =
      [rh] ++ (if List.isPrefixOf okn d then [op] else []) := by
  simp only [use_relay, mkFramer, Option.some.injEq] at h1
  subst h1
  simp only [Framer.connectionMade, Option.some.injEq] at h2
  subst h2
  refine ⟨rfl, ?_⟩
  intro d
  rw [add_and_parse, runLoop_wantRelay_writes _ rfl]
  simp

/-- Witness for C9: relay handshake `r` (114), prologues `o`/`i`
(111/105); on connect only `r` is written; feeding exactly `ok\n`
writes the prologue. -/
theorem relay_handshake_precedes_prologue_witness :
    (⟨[111], [105], [], false, .wantRelay, [114], [111, 107, 10],
        [[114]]⟩ : Framer).writes = [[114]] ∧
    (add_and_parse
        (⟨[111], [105], [], false, .wantRelay, [114], [111, 107, 10],
          [[114]]⟩ : Framer) [111, 107, 10]).framer.writes
      = [[114]] ++ (if List.isPrefixOf okn [111, 107, 10] then [[111]] else []) := by
  have h := relay_handshake_precedes_prologue [111] [105] [114]
    ⟨[111], [105], [], false, .wantRelay, [114], [111, 107, 10], []⟩
    ⟨[111], [105], [], false, .wantRelay, [114], [111, 107, 10], [[114]]⟩
    (by decide) (by decide)
  exact ⟨h.1, h.2 [111, 107, 10]⟩

/-- The well-formedness the wire layout relies on: fixed-width fields
(`ping_id`, `scid`, `seqnum`, `resp_seqnum`) are exactly 4 bytes;
`Data`'s payload is arbitrary. -/
def fieldsLen4 : Record → Prop
  | .KCM => True
  | .Ping ping_id => ping_id.length = 4
  | .Pong ping_id => ping_id.length = 4
  | .Open seqnum scid => seqnum.length = 4 ∧ scid.length = 4
  | .Data seqnum scid _ => seqnum.length = 4 ∧ scid.length = 4
  | .Close seqnum scid => seqnum.length = 4 ∧ scid.length = 4
  | .Ack resp_seqnum => resp_seqnum.length = 4

/-- C3 (amended): `parse_record (encode_record r) = r` for every record
whose fixed-width fields are exactly 4 bytes (`Data`'s payload staying
arbitrary), and the E5 example `Data(seqnum 00000007, scid 00000003,
"hello")` encodes to `04 ‖ scid ‖ seqnum ‖ data`. -/
theorem record_roundtrip (r : Record) (h : fieldsLen4 r) :
    parse_record (encode_record r) = some r ∧
    encode_record (.Data [0, 0, 0, 7] [0, 0, 0, 3] [104, 101, 108, 108, 111]) =
      [4, 0, 0, 0, 3, 0, 0, 0, 7, 104, 101, 108, 108, 111] := by
  refine ⟨?_, by decide⟩
  cases r with
  | KCM => decide
  | Ping ping_id =>
    simp only [fieldsLen4] at h
    rw [encode_record, parse_record]
    simp only [List.take_succ_cons, List.take_zero, List.drop_succ_cons]
    norm_num
    exact le_of_eq h
  | Pong ping_id =>
    simp only [fieldsLen4] at h
    rw [encode_record, parse_record]
    simp only [List.take_succ_cons, List.take_zero, List.drop_succ_cons]
    norm_num
    exact le_of_eq h
  | Open seqnum scid =>
    obtain ⟨h1, h2⟩ := h
    rw [encode_record, parse_record]
    simp only [List.take_succ_cons, List.take_zero, List.drop_succ_cons]
    norm_num
    constructor
    · rw [List.drop_left' h2]
      exact List.take_of_length_le (le_of_eq h1)
    · exact List.take_left' h2
  | Data seqnum scid data =>
    obtain ⟨h1, h2⟩ := h
    rw [encode_record, parse_record]
    simp only [List.take_succ_cons, List.take_zero, List.drop_succ_cons]
    norm_num
    refine ⟨?_, List.take_left' h2, ?_⟩
    · rw [List.drop_left' h2]
      exact List.take_left' h1
    · rw [← List.append_assoc]
      exact List.drop_left' (by simp [h1, h2])
  | Close seqnum scid =>
    obtain ⟨h1, h2⟩ := h
    rw [encode_record, parse_record]
    simp only [List.take_succ_cons, List.take_zero, List.drop_succ_cons]
    norm_num
    constructor
    · rw [List.drop_left' h2]
      exact List.take_of_length_le (le_of_eq h1)
    · exact List.take_left' h2
  | Ack resp_seqnum =>
    simp only [fieldsLen4] at h
    rw [encode_record, parse_record]
    simp only [List.take_succ_cons, List.take_zero, List.drop_succ_cons]
    norm_num
    exact le_of_eq h

/-- Counterexample for C3 as stated: with an arbitrary (5-byte)
`ping_id`, `Ping` does not round-trip — `parse_record` truncates the
field to the 4-byte slice `[1:5]`. -/
theorem ping_roundtrip_fails :
    parse_record (encode_record (.Ping [0, 0, 0, 0, 0])) ≠
      some (.Ping [0, 0, 0, 0, 0]) := by
  decide

/-- Witness for C3 (amended) at the E5 example record. -/
theorem record_roundtrip_witness :
    fieldsLen4 (.Data [0, 0, 0, 7] [0, 0, 0, 3] [104, 101, 108, 108, 111]) ∧
    parse_record (encode_record
        (.Data [0, 0, 0, 7] [0, 0, 0, 3] [104, 101, 108, 108, 111])) =
      some (.Data [0, 0, 0, 7] [0, 0, 0, 3] [104, 101, 108, 108, 111]) :=
  ⟨⟨rfl, rfl⟩,
   (record_roundtrip (.Data [0, 0, 0, 7] [0, 0, 0, 3] [104, 101, 108, 108, 111])
     ⟨rfl, rfl⟩).1⟩

/-- Embedding of `_Framer.send_frame` as declared in the source
(`def send_frame(self, send, frame)`) together with Python's positional
call discipline: a call binds `args` to the parameters `(send, frame)`
in order, raising `TypeError` unless exactly two arguments are given;
when the flag assertion passes, the body writes
`to_be4(len(frame)) + frame`. -/
def send_frame_call (can_send_frames : Bool) (args : List Bytes) :
    Except Err Bytes :=
  match args with
  | [_send, frame] =>
    if can_send_frames then
      .ok (to_be4 frame.length ++ frame)
    else
      .error .assertionError
  | _ => .error .typeError

/-- Embedding of `_Record.send_handshake` (connection.py lines 278-281): obtain the
Noise handshake message (`noise.write_message()`, here the abstract
argument `handshake`) and call `self._framer.send_frame(handshake)` —
a single positional argument. -/
def send_handshake (handshake : Bytes) (can_send_frames : Bool) :
    Except Err Bytes :=
  send_frame_call can_send_frames [handshake]

/-- Embedding of `_Record.send_record` (connection.py lines 325-328): encode the
record, encrypt it via the Noise session (abstract `encrypt`), and call
`self._framer.send_frame(frame)` — a single positional argument. -/
def send_record (encrypt : Bytes → Bytes) (can_send_frames : Bool)
    (r : Record) : Except Err Bytes :=
  send_frame_call can_send_frames [encrypt (encode_record r)]

/-- C5: when the prologue-consumed signal triggers `send_handshake`, the
declared `(self, send, frame)` parameter list of `send_frame` never
matches the single argument passed, so a `TypeError` is raised for every
handshake message and flag value — no `len_be4 ‖ handshake` bytes are
ever produced. -/
theorem send_handshake_type_error :
    ∀ (handshake : Bytes) (can_send_frames : Bool),
      send_handshake handshake can_send_frames = .error .typeError := by
  intro handshake can_send_frames
  rfl

/-- The two dilation roles (`roles.py`, not under src/: only the
`FOLLOWER` marker is used by connection.py). -/
inductive Role where
  | leader
  | follower
deriving DecidableEq, Repr

/-- The `DilatedConnectionProtocol` machine states
(`unselected`, `selecting`, `selected`). -/
inductive L2State where
  | unselected
  | selecting
  | selected
deriving DecidableEq, Repr

/-- A token yielded by `_Record.dataReceived`: the `Handshake` token or
a parsed record.  `parse_record` returns `None` for unknown tags, so the
stream element is an `Option` of this type. -/
inductive HsOrRec where
  | handshake
  | record (r : Record)
deriving DecidableEq, Repr

/-- Observable effects of the per-token dispatch in
`DilatedConnectionProtocol.dataReceived`. -/
inductive Effect where
  | wroteFrame (b : Bytes)
  | addCandidate
  | deliveredToManager (r : Record)
deriving DecidableEq, Repr

/-- The per-token body of `DilatedConnectionProtocol.dataReceived`
(connection.py lines 443-457): assert the token is a `Handshake` or a
record (`None` from an unknown tag fails the assertion); on `Handshake`
a `FOLLOWER` sends a KCM via `_Record.send_record`; on a `KCM` record
fire `got_kcm` (automat: defined only in `unselected`, entering
`selecting` with `add_candidate`); on any other record fire `got_record`
(automat: defined only in `selected`, delivering to the manager). -/
def handleToken (encrypt : Bytes → Bytes) (can_send_frames : Bool)
    (role : Role) (st : L2State) (t : Option HsOrRec) :
    Except Err (L2State × List Effect) :=
  match t with
  | none => .error .assertionError
  | some .handshake =>
    if role = .follower then
      match send_record encrypt can_send_frames .KCM with
      | .error e => .error e
      | .ok frame => .ok (st, [.wroteFrame frame])
    else
      .ok (st, [])
  | some (.record .KCM) =>
    match st with
    | .unselected => .ok (.selecting, [.addCandidate])
    | _ => .error .noTransition
  | some (.record r) =>
    match st with
    | .selected => .ok (.selected, [.deliveredToManager r])
    | _ => .error .noTransition

/-- C4: on the `Handshake` token a Follower immediately attempts
`send_record(KCM())`, but the `(self, send, frame)` parameter list of
`_Framer.send_frame` never matches the one argument passed, so the
dispatch raises `TypeError` for every Noise encryption function, flag
value and machine state — no KCM frame is ever written. -/
theorem follower_handshake_kcm_type_error :
    ∀ (encrypt : Bytes → Bytes) (can_send_frames : Bool) (st : L2State),
      handleToken encrypt can_send_frames .follower st (some .handshake)
          = .error .typeError ∧
      send_record encrypt can_send_frames .KCM = .error .typeError := by
  intro encrypt can_send_frames st
  exact ⟨rfl, rfl⟩

/-- Counterexample for C7: the decrypted plaintext `09 09` has the
unknown tag 9, `parse_record` returns `None`, and the `None` token fails
the `isinstance` assertion in `dataReceived` — an `AssertionError`
propagates, contrary to "no exception propagates". -/
theorem unknown_tag_assertion_error :
    parse_record [9, 9] = none ∧
    handleToken (fun b => b) true .leader .selected
        ((parse_record [9, 9]).map .record) = .error .assertionError := by
  exact ⟨rfl, rfl⟩

/-- C7 (amended): `parse_record` logs and returns `None` on every
plaintext whose first byte is not one of the seven known tags, so no
record token is produced for it; but in `dataReceived` the `None` value
fails the `isinstance` assertion, so an `AssertionError` propagates
instead of the record being silently dropped. -/
theorem unknown_tag_dropped_but_asserts (t : Nat) (rest : Bytes)
    (h : ¬ t ∈ [0, 1, 2, 3, 4, 5, 6]) :
    parse_record (t :: rest) = none ∧
    ∀ (encrypt : Bytes → Bytes) (can_send_frames : Bool) (role : Role)
      (st : L2State),
      handleToken encrypt can_send_frames role st none
        = .error .assertionError := by
  simp only [List.mem_cons, List.not_mem_nil, or_false] at h
  push_neg at h
  obtain ⟨h0, h1, h2, h3, h4, h5, h6⟩ := h
  refine ⟨?_, fun _ _ _ _ => rfl⟩
  simp [parse_record, h0, h1, h2, h3, h4, h5, h6]

/-- Witness for C7 (amended) at tag byte 7. -/
theorem unknown_tag_dropped_but_asserts_witness :
    parse_record [7, 104, 105] = none ∧
    handleToken (fun b => b) false .follower .unselected none
      = .error .assertionError := by
  refine ⟨(unknown_tag_dropped_but_asserts 7 [104, 105] (by decide)).1, ?_⟩
  exact (unknown_tag_dropped_but_asserts 7 [104, 105] (by decide)).2
    (fun b => b) false .follower .unselected

/-- The `Receive` machine states (`_receive.py`): `S0_unknown_key`,
`S1_unverified_key`, `S2_verified_key`, `S3_scared` (terminal). -/
inductive RState where
  | s0
  | s1
  | s2
  | s3
deriving DecidableEq, Repr

/-- The `Receive` machine inputs: `got_key`, `got_message_good`,
`got_message_bad`. -/
inductive REvent where
  | gotKey (key : Bytes)
  | good (phase : String) (plaintext : Bytes)
  | bad
deriving DecidableEq, Repr

/-- The `Receive` machine outputs: `record_key`, `S_got_verified_key`
(notify Send of the verified key), `W_happy`, `W_got_message` (deliver
plaintext to Boss), `W_scared`. -/
inductive ROut where
  | recordKey (key : Bytes)
  | gotVerifiedKey
  | happy
  | bossGotMessage (phase : String) (plaintext : Bytes)
  | scared
deriving DecidableEq, Repr

/-- The transition table of `Receive` (_receive.py lines 73-83); inputs
with no transition from the current state make automat raise
(`none`). -/
def receiveStep : RState → REvent → Option (RState × List ROut)
  | .s0, .gotKey k => some (.s1, [.recordKey k])
  | .s1, .good p pt => some (.s2, [.gotVerifiedKey, .happy, .bossGotMessage p pt])
  | .s1, .bad => some (.s3, [.scared])
  | .s2, .good p pt => some (.s2, [.bossGotMessage p pt])
  | .s2, .bad => some (.s3, [.scared])
  | .s3, .good _ _ => some (.s3, [])
  | .s3, .bad => some (.s3, [])
  | _, _ => none

/-- A message-level event (`got_message_good` / `got_message_bad`), the
only inputs the claim concerns after the key is known. -/
inductive MsgEvent where
  | good (phase : String) (plaintext : Bytes)
  | bad
deriving DecidableEq, Repr

def msgEvent : MsgEvent → REvent
  | .good p pt => .good p pt
  | .bad => .bad

/-- Folding a list of message events through the machine, collecting all
outputs; an undefined transition stops the run (automat raises). -/
def receiveRun (st : RState) : List MsgEvent → RState × List ROut
  | [] => (st, [])
  | e :: es =>
    match receiveStep st (msgEvent e) with
    | none => (st, [])
    | some (st', outs) =>
      let t := receiveRun st' es
      (t.1, outs ++ t.2)

def happyBound : RState → Nat
  | .s2 => 0
  | .s3 => 0
  | _ => 1

def scaredBound : RState → Nat
  | .s3 => 0
  | _ => 1

theorem receiveRun_counts (st : RState) (es : List MsgEvent) :
    (receiveRun st es).2.count .happy ≤ happyBound st ∧
    (receiveRun st es).2.count .scared ≤ scaredBound st := by
  induction es generalizing st with
  | nil => constructor <;> simp [receiveRun]
  | cons e es ih =>
    cases st <;> cases e <;>
      simp [receiveRun, receiveStep, msgEvent, List.count_append,
        List.count_cons, happyBound, scaredBound] <;>
      first
        | omega
        | (constructor <;>
            first
              | exact le_trans (ih _).1 (by simp [happyBound])
              | exact le_trans (ih _).2 (by simp [scaredBound])
              | (have h1 := (ih RState.s3).1
                 have h2 := (ih RState.s3).2
                 simp [happyBound, scaredBound] at h1 h2
                 omega)
              | (have h1 := (ih RState.s2).1
                 have h2 := (ih RState.s2).2
                 simp [happyBound, scaredBound] at h1 h2
                 omega))

/-- C8: in `Receive`, a good first message moves `S1 → S2` firing
`S_got_verified_key`, `W_happy` (once) and delivering the plaintext; a
bad message in `S1` or `S2` moves to `S3` firing `W_scared` (once);
in `S3` both message events are no-ops; and over any run of message
events started in `S1`, `happy` and `scared` each fire at most once. -/
theorem receive_machine_behaviour :
    (∀ p pt, receiveStep .s1 (.good p pt)
        = some (.s2, [.gotVerifiedKey, .happy, .bossGotMessage p pt])) ∧
    receiveStep .s1 .bad = some (.s3, [.scared]) ∧
    receiveStep .s2 .bad = some (.s3, [.scared]) ∧
    (∀ p pt, receiveStep .s3 (.good p pt) = some (.s3, [])) ∧
    receiveStep .s3 .bad = some (.s3, []) ∧
    (∀ es, (receiveRun .s1 es).2.count .happy ≤ 1 ∧
           (receiveRun .s1 es).2.count .scared ≤ 1) := by
  refine ⟨fun p pt => rfl, rfl, rfl, fun p pt => rfl, rfl, fun es => ?_⟩
  exact receiveRun_counts .s1 es

/-- The `Receive` object state outside the machine: `_side` (from
construction) and `_key` (None until `got_key`). -/
structure ReceiveCtx where
  side : String
  key : Option Bytes
  st : RState
deriving DecidableEq, Repr

/-- Result of a successful `got_message` call: the updated object, the
machine outputs, and the `(key, phase)` arguments of each
`derive_phase_key` call performed. -/
structure GotMessageResult where
  ctx : ReceiveCtx
  outs : List ROut
  derivations : List (Bytes × String)
deriving DecidableEq, Repr

/-- Embedding of `Receive.got_message` (_receive.py lines 34-44): `assert self._key`
fails when the key is `None` (or empty, Python falsiness) before any
derivation; otherwise derive the phase key with the stored key
(`derive_phase_key` and `decrypt_data` live in `_key.py`, not under
src/, and are abstract here), attempt decryption, and feed
`got_message_good` / `got_message_bad` into the machine. -/
def got_message (derive_phase_key : Bytes → String → String → Bytes)
    (decrypt_data : Bytes → Bytes → Option Bytes)
    (c : ReceiveCtx) (phase : String) (body : Bytes) :
    Except Err GotMessageResult :=
  match c.key with
  | none => .error .assertionError
  | some k =>
    if k = [] then
      .error .assertionError
    else
      match decrypt_data (derive_phase_key k c.side phase) body with
      | some plaintext =>
        match receiveStep c.st (.good phase plaintext) with
        | some (st', outs) => .ok ⟨{ c with st := st' }, outs, [(k, phase)]⟩
        | none => .error .noTransition
      | none =>
        match receiveStep c.st .bad with
        | some (st', outs) => .ok ⟨{ c with st := st' }, outs, [(k, phase)]⟩
        | none => .error .noTransition

/-- Embedding of `Receive.got_key` via the machine (`record_key` stores the key). -/
def got_key (c : ReceiveCtx) (k : Bytes) : Except Err ReceiveCtx :=
  match receiveStep c.st (.gotKey k) with
  | some (st', _) => .ok { c with st := st', key := some k }
  | none => .error .noTransition

theorem got_message_ok {dk : Bytes → String → String → Bytes}
    {dd : Bytes → Bytes → Option Bytes} {c : ReceiveCtx} {k : Bytes}
    {phase : String} {body : Bytes} {r : GotMessageResult}
    (hk : c.key = some k)
    (h : got_message dk dd c phase body = .ok r) :
    r.ctx.key = some k ∧ r.derivations = [(k, phase)] := by
  simp only [got_message, hk] at h
  split_ifs at h with he
  split at h
  · split at h
    · simp only [Except.ok.injEq] at h
      subst h
      exact ⟨rfl, rfl⟩
    · exact absurd h (by simp)
  · split at h
    · simp only [Except.ok.injEq] at h
      subst h
      exact ⟨rfl, rfl⟩
    · exact absurd h (by simp)

/-- Folding `got_message` over a list of `(phase, body)` messages,
collecting every `derive_phase_key` call; a raised assertion stops the
run. -/
def gmRun (derive_phase_key : Bytes → String → String → Bytes)
    (decrypt_data : Bytes → Bytes → Option Bytes) (c : ReceiveCtx) :
    List (String × Bytes) → ReceiveCtx × List (Bytes × String)
  | [] => (c, [])
  | (phase, body) :: rest =>
    match got_message derive_phase_key decrypt_data c phase body with
    | .ok r =>
      let t := gmRun derive_phase_key decrypt_data r.ctx rest
      (t.1, r.derivations ++ t.2)
    | .error _ => (c, [])

/-- C10: calling `got_message` while the stored key is still `None`
fails the assertion — for every derivation and decryption oracle, so
neither is consulted; `got_key k` stores exactly `k`; and every
`derive_phase_key` call in any subsequent run of `got_message` uses
exactly the stored key `k`. -/
theorem got_message_key_discipline :
    (∀ (dk : Bytes → String → String → Bytes)
       (dd : Bytes → Bytes → Option Bytes) (c : ReceiveCtx)
       (phase : String) (body : Bytes),
        c.key = none →
        got_message dk dd c phase body = .error .assertionError) ∧
    (∀ (c : ReceiveCtx) (k : Bytes) (c' : ReceiveCtx),
        got_key c k = .ok c' → c'.key = some k) ∧
    (∀ (dk : Bytes → String → String → Bytes)
       (dd : Bytes → Bytes → Option Bytes) (c : ReceiveCtx) (k : Bytes)
       (msgs : List (String × Bytes)),
        c.key = some k →
        ∀ d ∈ (gmRun dk dd c msgs).2, d.1 = k) := by
  refine ⟨?_, ?_, ?_⟩
  · intro dk dd c phase body h
    simp [got_message, h]
  · intro c k c' h
    obtain ⟨side, key, st⟩ := c
    cases st <;> simp [got_key, receiveStep] at h <;> subst h <;> rfl
  · intro dk dd c k msgs
    induction msgs generalizing c with
    | nil =>
      intro hk d hd
      simp [gmRun] at hd
    | cons m rest ih =>
      intro hk d hd
      obtain ⟨phase, body⟩ := m
      rcases hgm : got_message dk dd c phase body with e | r
      · simp only [gmRun, hgm] at hd
        simp at hd
      · obtain ⟨hck, hder⟩ := got_message_ok hk hgm
        simp only [gmRun, hgm, hder] at hd
        rcases List.mem_append.1 hd with hl | hr
        · simp at hl
          subst hl
          rfl
        · exact ih r.ctx hck d hr

/-- Witness for C10: with the key still `None`, `got_message` fails the
assertion; `got_key [9]` stores `[9]`; a subsequent failing decryption
derives with key `[9]`. -/
theorem got_message_key_discipline_witness :
    got_message (fun k _ _ => k) (fun _ _ => none)
        ⟨"side0", none, .s0⟩ "0" [1, 2] = .error .assertionError ∧
    (got_key ⟨"side0", none, .s0⟩ [9] = .ok ⟨"side0", some [9], .s1⟩ ∧
      (⟨"side0", some [9], .s1⟩ : ReceiveCtx).key = some [9]) ∧
    (([9] : Bytes), "0").1 = [9] := by
  refine ⟨got_message_key_discipline.1 _ _ _ "0" [1, 2] rfl,
    ⟨rfl, got_message_key_discipline.2.1 ⟨"side0", none, .s0⟩ [9] _ rfl⟩, ?_⟩
  exact got_message_key_discipline.2.2 (fun k _ _ => k) (fun _ _ => none)
    ⟨"side0", some [9], .s1⟩ [9] [("0", [3])] rfl ([9], "0") (by decide)
